import Mathlib

/-!
Shallow embedding of the wallet manager of `src/plugins/wallet_plugin/wallet_manager.cpp`
(namespace `evt::wallet`).  Machine state is passed explicitly: every public
operation takes the current wall-clock instant `now : Nat` (seconds) and the
manager value, and returns its result together with the successor manager value.
A C++ exception is modelled as an `Except.error`; the state component returned
alongside an error reflects the member mutations performed before the throw
(notably those of `check_timeout`), exactly as a thrown exception leaves the
C++ object.
-/

namespace evt.wallet

abbrev PubKey := Nat
abbrev PrivKey := Nat
abbrev Digest := Nat
abbrev Sig := Nat × Nat

/-- Modelled from the spec: the signature/digest algorithms are external
collaborators whose bytes the manager never interprets; a signature is
represented as the pair of the signing private key and the digest, which keeps
signatures by distinct keys or over distinct digests distinguishable. -/
def sign (priv : PrivKey) (d : Digest) : Sig := (priv, d)

/-- Modelled from the spec: derivation of a public key from a private key is an
external cryptographic operation; it is represented by an injective map. -/
def pubOf (priv : PrivKey) : PubKey := priv

/-- Error conditions the manager surfaces (spec section 7).  In the C++ these
are distinct exception types or, for `AllWalletsLocked` versus `WalletLocked`,
the same exception type thrown with distinct messages at distinct sites. -/
inductive Err where
  | InvalidName
  | WalletAlreadyExists
  | WalletNonexistent
  | WalletLocked
  | WalletAlreadyUnlocked
  | BadPassword
  | MissingPublicKey (k : PubKey)
  | NoWalletsAvailable
  | AllWalletsLocked
  | DuplicateWalletRegistration
  deriving DecidableEq

deriving instance DecidableEq for Except

/-- Modelled from the spec: the wallet capability state the manager interacts
with — its lock state, its bound passphrase and its stored key pairs (the
soft wallet backend is a separate source file outside `src/`). -/
structure Wallet where
  locked : Bool
  password : String
  keys : List (PubKey × PrivKey)
  deriving DecidableEq

def Wallet.is_locked (w : Wallet) : Bool := w.locked

def Wallet.lock (w : Wallet) : Wallet := { w with locked := true }

/-- Modelled from the spec: `unlock` transitions to Unlocked iff the password
verifies, otherwise fails BadPassword and the state remains Locked. -/
def Wallet.unlock (pw : String) (w : Wallet) : Except Err Wallet :=
  if pw = w.password then .ok { w with locked := false } else .error .BadPassword

/-- Modelled from the spec: password verification; BadPassword on mismatch. -/
def Wallet.check_password (pw : String) (w : Wallet) : Except Err Unit :=
  if pw = w.password then .ok () else .error .BadPassword

def Wallet.list_public_keys (w : Wallet) : List PubKey := w.keys.map Prod.fst

/-- Modelled from the spec: `try_sign_digest` signs with exactly the named key
when present and returns `none` rather than failing when the key is absent. -/
def Wallet.try_sign_digest (w : Wallet) (d : Digest) (k : PubKey) : Option Sig :=
  match w.keys.find? (fun p => p.1 == k) with
  | some p => some (sign p.2 d)
  | none => none

/-- Modelled from the spec: importing a private key adds the derived key pair
to the key set (a duplicate public key is not added twice). -/
def Wallet.import_key (priv : PrivKey) (w : Wallet) : Wallet :=
  if w.keys.any (fun p => p.1 == pubOf priv) then w
  else { w with keys := w.keys ++ [(pubOf priv, priv)] }

/-- Modelled from the spec: removing a key drops the pair with that public key. -/
def Wallet.remove_key (k : PubKey) (w : Wallet) : Wallet :=
  { w with keys := w.keys.filter (fun p => p.1 != k) }

/-- Modelled from the spec: `create_key` stores a freshly generated key pair;
the fresh private key is passed in explicitly. -/
def Wallet.create_key (priv : PrivKey) (w : Wallet) : Wallet :=
  { w with keys := w.keys ++ [(pubOf priv, priv)] }

/-- Modelled from the spec: the persisted wallet file content.  Loading a
persisted wallet yields it Locked: its key material is stored encrypted. -/
structure WalletFile where
  password : String
  keys : List (PubKey × PrivKey)
  deriving DecidableEq

/-- Manager state: the registry (its container is declared in a header outside
`src/`; per the spec it is modelled as a sequence iterated in registration
order), the modelled contents of the wallet directory, and the timeout policy.
`timeout_time = none` stands for the `timepoint_t::max()` sentinel that
disables the timeout check. -/
structure WalletManager where
  wallets : List (String × Wallet)
  files : List (String × WalletFile)
  timeout : Nat
  timeout_time : Option Nat
  deriving DecidableEq

/-- Translation of `gen_password`: the fixed textual marker `PW` followed by
the encoding of a freshly generated private key (generation is an external
collaborator; the fresh key is passed in explicitly). -/
def gen_password (genKey : Nat) : String := "PW" ++ toString genKey

/-- Modelled from the spec: `boost::filesystem::path(name).filename()` on a
POSIX platform — the component after the last separator, a trailing separator
normalizing to the dot component; a name without a separator normalizes to
itself. -/
def filenameOf (s : String) : String :=
  if '/' ∈ s.toList then
    let last := s.toList.foldl (fun acc c => if c = '/' then [] else acc ++ [c]) []
    if last.isEmpty then "." else String.mk last
  else s

/-- Translation of `valid_filename`: non-empty, every character alphanumeric or
one of the characters dot, underscore and hyphen, and the name equal to its own
filename normalization. -/
def valid_filename (name : String) : Bool :=
  if name = "" then false
  else if name.toList.any (fun c => !(c.isAlphanum || c == '.' || c == '_' || c == '-')) then false
  else filenameOf name == name

/-- Erase any existing registry entry of the same name, then register the new
instance (`wallets.erase` followed by `wallets.emplace` in `create`/`open`). -/
def registryReplace (name : String) (w : Wallet) (ws : List (String × Wallet)) :
    List (String × Wallet) :=
  ws.filter (fun p => p.1 != name) ++ [(name, w)]

/-- In-place mutation of the wallet owned by one registry entry
(`wallets.at(name)` returning a reference the C++ then mutates). -/
def updateWallet (name : String) (f : Wallet → Wallet) (ws : List (String × Wallet)) :
    List (String × Wallet) :=
  ws.map (fun p => if p.1 = name then (p.1, f p.2) else p)

/-- Overwrite of the persisted wallet file (`save_wallet_file`). -/
def filesReplace (fn : String) (f : WalletFile) (fs : List (String × WalletFile)) :
    List (String × WalletFile) :=
  fs.filter (fun p => p.1 != fn) ++ [(fn, f)]

/-- Loop body of `lock_all`: lock every wallet that is not already locked. -/
def lock_all_wallets (ws : List (String × Wallet)) : List (String × Wallet) :=
  ws.map (fun p => if p.2.is_locked then p else (p.1, p.2.lock))

/-- Translation of `wallet_manager::lock_all`: locks every currently unlocked
wallet; no call to `check_timeout`. -/
def lock_all (m : WalletManager) : WalletManager :=
  { m with wallets := lock_all_wallets m.wallets }

/-- Translation of `wallet_manager::check_timeout`: when the expiry is not the
max sentinel, lock everything once `now` has reached the expiry, and in either
case slide the expiry to `now` plus the configured duration. -/
def check_timeout (now : Nat) (m : WalletManager) : WalletManager :=
  match m.timeout_time with
  | none => m
  | some tt =>
    if tt ≤ now then { lock_all m with timeout_time := some (now + m.timeout) }
    else { m with timeout_time := some (now + m.timeout) }

/-- Translation of `wallet_manager::set_timeout`: store the duration and
recompute the expiry from `now` (the C++ overflow assertion cannot fire over
`Nat`). -/
def set_timeout (now t : Nat) (m : WalletManager) : WalletManager :=
  { m with timeout := t, timeout_time := some (now + t) }

/-- Insertion into a `flat_set`, modelled as a duplicate-free list in insertion
order (none of the verified properties depend on the sortedness of the set). -/
def setInsert {α : Type} [DecidableEq α] (xs : List α) (x : α) : List α :=
  if x ∈ xs then xs else xs ++ [x]

def setUnion {α : Type} [DecidableEq α] (xs ys : List α) : List α :=
  ys.foldl setInsert xs

/-- Aggregation loop of `get_public_keys`: merge the public keys of every
unlocked wallet. -/
def pubKeysUnion (ws : List (String × Wallet)) : List PubKey :=
  ws.foldl (fun acc p => if p.2.is_locked then acc else setUnion acc p.2.list_public_keys) []

/-- Body of `wallet_manager::create` after its `check_timeout` call: validate
the name, refuse an existing file, generate the password, run the
unlock/lock/unlock round trip on the fresh wallet, persist the file, and
replace-register the instance, returning the password. -/
def createBody (genKey : Nat) (name : String) (m : WalletManager) :
    Except Err String × WalletManager :=
  if !valid_filename name then (.error .InvalidName, m)
  else
    let wallet_filename := name ++ ".wallet"
    if (m.files.lookup wallet_filename).isSome then (.error .WalletAlreadyExists, m)
    else
      let password := gen_password genKey
      let w0 : Wallet := { locked := true, password := password, keys := [] }
      match Wallet.unlock password w0 with
      | .error e => (.error e, m)
      | .ok w1 =>
        match Wallet.unlock password w1.lock with
        | .error e => (.error e, m)
        | .ok w2 =>
          (.ok password,
            { m with
              files := filesReplace wallet_filename { password := password, keys := w2.keys } m.files,
              wallets := registryReplace name w2 m.wallets })

def create (now genKey : Nat) (name : String) (m : WalletManager) :
    Except Err String × WalletManager :=
  createBody genKey name (check_timeout now m)

/-- Body of `wallet_manager::open` after its `check_timeout` call: validate the
name, fail WalletNonexistent when the file does not load, otherwise
replace-register the loaded (Locked) wallet.  Named `openBody`/`openWallet`
because `open` is a Lean keyword. -/
def openBody (name : String) (m : WalletManager) : Except Err Unit × WalletManager :=
  if !valid_filename name then (.error .InvalidName, m)
  else
    match m.files.lookup (name ++ ".wallet") with
    | none => (.error .WalletNonexistent, m)
    | some f =>
      (.ok (),
        { m with wallets :=
            registryReplace name { locked := true, password := f.password, keys := f.keys } m.wallets })

def openWallet (now : Nat) (name : String) (m : WalletManager) :
    Except Err Unit × WalletManager :=
  openBody name (check_timeout now m)

/-- Body of `wallet_manager::list_wallets`: every registered name, a star
marker appended when the wallet is unlocked. -/
def list_walletsBody (m : WalletManager) : Except Err (List String) × WalletManager :=
  (.ok (m.wallets.map (fun p => if p.2.is_locked then p.1 else p.1 ++ " *")), m)

def list_wallets (now : Nat) (m : WalletManager) : Except Err (List String) × WalletManager :=
  list_walletsBody (check_timeout now m)

/-- Body of `wallet_manager::list_keys`: requires registered and unlocked,
verifies the password, returns the full key mapping. -/
def list_keysBody (name pw : String) (m : WalletManager) :
    Except Err (List (PubKey × PrivKey)) × WalletManager :=
  match m.wallets.lookup name with
  | none => (.error .WalletNonexistent, m)
  | some w =>
    if w.is_locked then (.error .WalletLocked, m)
    else
      match Wallet.check_password pw w with
      | .error e => (.error e, m)
      | .ok _ => (.ok w.keys, m)

def list_keys (now : Nat) (name pw : String) (m : WalletManager) :
    Except Err (List (PubKey × PrivKey)) × WalletManager :=
  list_keysBody name pw (check_timeout now m)

/-- Body of `wallet_manager::get_public_keys`: NoWalletsAvailable on an empty
registry, otherwise the union over unlocked wallets, AllWalletsLocked when
every registered wallet is locked. -/
def get_public_keysBody (m : WalletManager) : Except Err (List PubKey) × WalletManager :=
  if m.wallets.isEmpty then (.error .NoWalletsAvailable, m)
  else
    let result := pubKeysUnion m.wallets
    let is_all_wallet_locked := m.wallets.all (fun p => p.2.is_locked)
    if is_all_wallet_locked then (.error .AllWalletsLocked, m)
    else (.ok result, m)

def get_public_keys (now : Nat) (m : WalletManager) : Except Err (List PubKey) × WalletManager :=
  get_public_keysBody (check_timeout now m)

/-- Body of `wallet_manager::get_my_signatures`: same emptiness contract as
`get_public_keys`; signs the chain id with every key of every unlocked wallet. -/
def get_my_signaturesBody (chain_id : Nat) (m : WalletManager) :
    Except Err (List Sig) × WalletManager :=
  if m.wallets.isEmpty then (.error .NoWalletsAvailable, m)
  else
    let result := m.wallets.foldl
      (fun acc p =>
        if p.2.is_locked then acc
        else p.2.keys.foldl (fun acc2 kp => setInsert acc2 (sign kp.2 chain_id)) acc) []
    let is_all_wallet_locked := m.wallets.all (fun p => p.2.is_locked)
    if is_all_wallet_locked then (.error .AllWalletsLocked, m)
    else (.ok result, m)

def get_my_signatures (now chain_id : Nat) (m : WalletManager) :
    Except Err (List Sig) × WalletManager :=
  get_my_signaturesBody chain_id (check_timeout now m)

/-- Body of `wallet_manager::lock`: WalletNonexistent when unregistered; an
early return (without delegating to the capability) when already locked. -/
def lockBody (name : String) (m : WalletManager) : Except Err Unit × WalletManager :=
  match m.wallets.lookup name with
  | none => (.error .WalletNonexistent, m)
  | some w =>
    if w.is_locked then (.ok (), m)
    else (.ok (), { m with wallets := updateWallet name Wallet.lock m.wallets })

def lock (now : Nat) (name : String) (m : WalletManager) : Except Err Unit × WalletManager :=
  lockBody name (check_timeout now m)

/-- The registered-wallet part of `wallet_manager::unlock` (`wallets.at(name)`
onwards): WalletAlreadyUnlocked when not locked, otherwise delegate to the
capability.  The `none` branch mirrors `wallets.at` and is unreachable after a
successful open. -/
def unlockAt (name pw : String) (m : WalletManager) : Except Err Unit × WalletManager :=
  match m.wallets.lookup name with
  | none => (.error .WalletNonexistent, m)
  | some w =>
    if !w.is_locked then (.error .WalletAlreadyUnlocked, m)
    else
      match Wallet.unlock pw w with
      | .error e => (.error e, m)
      | .ok w2 => (.ok (), { m with wallets := updateWallet name (fun _ => w2) m.wallets })

/-- Body of `wallet_manager::unlock` after its own `check_timeout` call: an
unregistered name is first auto-opened through the public `open` (which runs
`check_timeout` again), a failing open propagating its error. -/
def unlockBody (now : Nat) (name pw : String) (m : WalletManager) :
    Except Err Unit × WalletManager :=
  if (m.wallets.lookup name).isNone then
    match openWallet now name m with
    | (.error e, m2) => (.error e, m2)
    | (.ok _, m2) => unlockAt name pw m2
  else unlockAt name pw m

def unlock (now : Nat) (name pw : String) (m : WalletManager) :
    Except Err Unit × WalletManager :=
  unlockBody now name pw (check_timeout now m)

/-- Body of `wallet_manager::import_key`: requires registered and unlocked. -/
def import_keyBody (name : String) (priv : PrivKey) (m : WalletManager) :
    Except Err Unit × WalletManager :=
  match m.wallets.lookup name with
  | none => (.error .WalletNonexistent, m)
  | some w =>
    if w.is_locked then (.error .WalletLocked, m)
    else (.ok (), { m with wallets := updateWallet name (Wallet.import_key priv) m.wallets })

def import_key (now : Nat) (name : String) (priv : PrivKey) (m : WalletManager) :
    Except Err Unit × WalletManager :=
  import_keyBody name priv (check_timeout now m)

/-- Body of `wallet_manager::remove_key`: requires registered and unlocked and
verifies the password before removal proceeds. -/
def remove_keyBody (name pw : String) (k : PubKey) (m : WalletManager) :
    Except Err Unit × WalletManager :=
  match m.wallets.lookup name with
  | none => (.error .WalletNonexistent, m)
  | some w =>
    if w.is_locked then (.error .WalletLocked, m)
    else
      match Wallet.check_password pw w with
      | .error e => (.error e, m)
      | .ok _ => (.ok (), { m with wallets := updateWallet name (Wallet.remove_key k) m.wallets })

def remove_key (now : Nat) (name pw : String) (k : PubKey) (m : WalletManager) :
    Except Err Unit × WalletManager :=
  remove_keyBody name pw k (check_timeout now m)

/-- Body of `wallet_manager::create_key`: requires registered and unlocked,
uppercases the key-type selector and delegates; the fresh private key is an
explicit input. -/
def create_keyBody (name key_type : String) (genPriv : Nat) (m : WalletManager) :
    Except Err PubKey × WalletManager :=
  match m.wallets.lookup name with
  | none => (.error .WalletNonexistent, m)
  | some w =>
    if w.is_locked then (.error .WalletLocked, m)
    else
      let _upper_key_type := key_type.toUpper
      (.ok (pubOf genPriv),
        { m with wallets := updateWallet name (Wallet.create_key genPriv) m.wallets })

def create_key (now : Nat) (name key_type : String) (genPriv : Nat) (m : WalletManager) :
    Except Err PubKey × WalletManager :=
  create_keyBody name key_type genPriv (check_timeout now m)

/-- Transaction value: the signing digest is derived from the transaction body
and the chain id and does not depend on the signatures already attached. -/
structure Txn where
  body : Nat
  signatures : List Sig
  deriving DecidableEq

/-- Modelled from the spec: the signing digest derived from the transaction
and the chain id (the digest computation lives in the chain library outside
`src/`); represented by an injective pairing. -/
def Txn.sig_digest (t : Txn) (chain_id : Nat) : Digest := Nat.pair t.body chain_id

/-- Inner loop of `sign_transaction` for one requested key: the first unlocked
wallet whose `try_sign_digest` yields a signature supplies it and the scan
stops; locked wallets are skipped. -/
def findSigForKey (d : Digest) (k : PubKey) : List (String × Wallet) → Option Sig
  | [] => none
  | p :: ws =>
    if !p.2.is_locked then
      match p.2.try_sign_digest d k with
      | some s => some s
      | none => findSigForKey d k ws
    else findSigForKey d k ws

/-- Outer loop of `sign_transaction`: one signature appended per requested key,
MissingPublicKey (naming the key) at the first key with no match. -/
def signTxnKeys (ws : List (String × Wallet)) (d : Digest) :
    List PubKey → List Sig → Except Err (List Sig)
  | [], acc => .ok acc
  | k :: ks, acc =>
    match findSigForKey d k ws with
    | some s => signTxnKeys ws d ks (acc ++ [s])
    | none => .error (.MissingPublicKey k)

/-- Body of `wallet_manager::sign_transaction`: collect a signature per key
over the copy of the transaction and return the augmented copy. -/
def sign_transactionBody (txn : Txn) (keys : List PubKey) (chain_id : Nat) (m : WalletManager) :
    Except Err Txn × WalletManager :=
  match signTxnKeys m.wallets (txn.sig_digest chain_id) keys txn.signatures with
  | .ok sigs => (.ok { txn with signatures := sigs }, m)
  | .error e => (.error e, m)

def sign_transaction (now : Nat) (txn : Txn) (keys : List PubKey) (chain_id : Nat)
    (m : WalletManager) : Except Err Txn × WalletManager :=
  sign_transactionBody txn keys chain_id (check_timeout now m)

/-- Scan loop of `sign_digest`: first unlocked wallet with a signature wins,
MissingPublicKey naming the key when none produces one. -/
def scanSign (d : Digest) (k : PubKey) : List (String × Wallet) → Except Err Sig
  | [] => .error (.MissingPublicKey k)
  | p :: ws =>
    if !p.2.is_locked then
      match p.2.try_sign_digest d k with
      | some s => .ok s
      | none => scanSign d k ws
    else scanSign d k ws

def sign_digestBody (d : Digest) (k : PubKey) (m : WalletManager) :
    Except Err Sig × WalletManager :=
  (scanSign d k m.wallets, m)

def sign_digest (now : Nat) (d : Digest) (k : PubKey) (m : WalletManager) :
    Except Err Sig × WalletManager :=
  sign_digestBody d k (check_timeout now m)

/-- Translation of `wallet_manager::own_and_use_wallet`: registers a
pre-constructed wallet under a not-yet-registered name; no `check_timeout`
call appears in the source. -/
def own_and_use_wallet (name : String) (w : Wallet) (m : WalletManager) :
    Except Err Unit × WalletManager :=
  if (m.wallets.lookup name).isSome then (.error .DuplicateWalletRegistration, m)
  else (.ok (), { m with wallets := m.wallets ++ [(name, w)] })

/-- Uniform result value for the dispatch over all public operations. -/
inductive OutVal where
  | unit
  | str (s : String)
  | strs (l : List String)
  | keyList (l : List (PubKey × PrivKey))
  | pubs (l : List PubKey)
  | pub (k : PubKey)
  | sigSet (l : List Sig)
  | oneSig (s : Sig)
  | txnOut (t : Txn)
  deriving DecidableEq

/-- One public manager operation together with its arguments (fresh random
inputs an operation consumes are carried as arguments). -/
inductive MOp where
  | create (genKey : Nat) (name : String)
  | openW (name : String)
  | list_wallets
  | list_keys (name pw : String)
  | get_public_keys
  | get_my_signatures (chain_id : Nat)
  | lock_all
  | lock (name : String)
  | unlock (name pw : String)
  | import_key (name : String) (priv : PrivKey)
  | remove_key (name pw : String) (k : PubKey)
  | create_key (name key_type : String) (genPriv : Nat)
  | sign_transaction (txn : Txn) (keys : List PubKey) (chain_id : Nat)
  | sign_digest (d : Digest) (k : PubKey)
  | set_timeout (t : Nat)
  | own_and_use_wallet (name : String) (w : Wallet)
  deriving DecidableEq

def outOf {α : Type} (f : α → OutVal) :
    Except Err α × WalletManager → Except Err OutVal × WalletManager
  | (.ok a, m) => (.ok (f a), m)
  | (.error e, m) => (.error e, m)

/-- Dispatch of one public operation, exactly as the source defines it. -/
def runOp (op : MOp) (now : Nat) (m : WalletManager) : Except Err OutVal × WalletManager :=
  match op with
  | .create g n => outOf OutVal.str (create now g n m)
  | .openW n => outOf (fun _ => OutVal.unit) (openWallet now n m)
  | .list_wallets => outOf OutVal.strs (list_wallets now m)
  | .list_keys n pw => outOf OutVal.keyList (list_keys now n pw m)
  | .get_public_keys => outOf OutVal.pubs (get_public_keys now m)
  | .get_my_signatures cid => outOf OutVal.sigSet (get_my_signatures now cid m)
  | .lock_all => (.ok OutVal.unit, lock_all m)
  | .lock n => outOf (fun _ => OutVal.unit) (lock now n m)
  | .unlock n pw => outOf (fun _ => OutVal.unit) (unlock now n pw m)
  | .import_key n k => outOf (fun _ => OutVal.unit) (import_key now n k m)
  | .remove_key n pw k => outOf (fun _ => OutVal.unit) (remove_key now n pw k m)
  | .create_key n kt g => outOf OutVal.pub (create_key now n kt g m)
  | .sign_transaction t ks cid => outOf OutVal.txnOut (sign_transaction now t ks cid m)
  | .sign_digest d k => outOf OutVal.oneSig (sign_digest now d k m)
  | .set_timeout t => (.ok OutVal.unit, set_timeout now t m)
  | .own_and_use_wallet n w => outOf (fun _ => OutVal.unit) (own_and_use_wallet n w m)

/-- Dispatch of one public operation with its leading `check_timeout` call
stripped; for the operations whose source has no such call this coincides with
`runOp`. -/
def runBody (op : MOp) (now : Nat) (m : WalletManager) : Except Err OutVal × WalletManager :=
  match op with
  | .create g n => outOf OutVal.str (createBody g n m)
  | .openW n => outOf (fun _ => OutVal.unit) (openBody n m)
  | .list_wallets => outOf OutVal.strs (list_walletsBody m)
  | .list_keys n pw => outOf OutVal.keyList (list_keysBody n pw m)
  | .get_public_keys => outOf OutVal.pubs (get_public_keysBody m)
  | .get_my_signatures cid => outOf OutVal.sigSet (get_my_signaturesBody cid m)
  | .lock_all => (.ok OutVal.unit, lock_all m)
  | .lock n => outOf (fun _ => OutVal.unit) (lockBody n m)
  | .unlock n pw => outOf (fun _ => OutVal.unit) (unlockBody now n pw m)
  | .import_key n k => outOf (fun _ => OutVal.unit) (import_keyBody n k m)
  | .remove_key n pw k => outOf (fun _ => OutVal.unit) (remove_keyBody n pw k m)
  | .create_key n kt g => outOf OutVal.pub (create_keyBody n kt g m)
  | .sign_transaction t ks cid => outOf OutVal.txnOut (sign_transactionBody t ks cid m)
  | .sign_digest d k => outOf OutVal.oneSig (sign_digestBody d k m)
  | .set_timeout t => (.ok OutVal.unit, set_timeout now t m)
  | .own_and_use_wallet n w => outOf (fun _ => OutVal.unit) (own_and_use_wallet n w m)

/-- Operations whose source begins with a `check_timeout` call. -/
def isChecked : MOp → Bool
  | .lock_all => false
  | .set_timeout _ => false
  | .own_and_use_wallet _ _ => false
  | _ => true

/-- Checked operations whose body neither locks a wallet nor replaces a
registered wallet: every checked operation except `lock`, `create` and
`open`. -/
def nonLockingOp : MOp → Bool
  | .list_wallets => true
  | .list_keys _ _ => true
  | .get_public_keys => true
  | .get_my_signatures _ => true
  | .unlock _ _ => true
  | .import_key _ _ => true
  | .remove_key _ _ _ => true
  | .create_key _ _ _ => true
  | .sign_transaction _ _ _ => true
  | .sign_digest _ _ => true
  | _ => false

/-- State reached by running a timed sequence of operations. -/
def runTrace (tr : List (Nat × MOp)) (m : WalletManager) : WalletManager :=
  tr.foldl (fun acc p => (runOp p.2 p.1 acc).2) m

/-- Given the duration `d` and the expiry in force before the first call, each
call instant stays strictly below the expiry in force when it arrives (the
expiry sliding to the instant plus `d` after every call). -/
def timesOK (d : Nat) : Nat → List Nat → Bool
  | _, [] => true
  | e, t :: ts => decide (t < e) && timesOK d (t + d) ts

/-- The expiry in force after a timed sequence of checked calls. -/
def expiryAfter (d e : Nat) (ts : List Nat) : Nat :=
  ts.foldl (fun _ t => t + d) e

/-- Written from the claim (refinement target): the signature supplied by the
first unlocked wallet, in registry order, whose `try_sign_digest` yields one
for the key. -/
def firstMatchSig (ws : List (String × Wallet)) (d : Digest) (k : PubKey) : Option Sig :=
  (ws.filter (fun p => !p.2.is_locked)).findSome? (fun p => p.2.try_sign_digest d k)

/-- Written from the claim (refinement target): one signature per requested
key via `firstMatchSig`, failing MissingPublicKey at the first key with no
match. -/
def collectSigs (ws : List (String × Wallet)) (d : Digest) : List PubKey → Except Err (List Sig)
  | [] => .ok []
  | k :: ks =>
    match firstMatchSig ws d k with
    | none => .error (.MissingPublicKey k)
    | some s =>
      match collectSigs ws d ks with
      | .ok sigs => .ok (s :: sigs)
      | .error e => .error e

/-- An unlocked wallet holding no keys, for concrete instantiations. -/
def wA : Wallet := { locked := false, password := "p", keys := [] }

/-- A locked wallet, for concrete instantiations. -/
def wB : Wallet := { locked := true, password := "q", keys := [] }

/-- An empty manager with the timeout disabled. -/
def mEmpty : WalletManager := { wallets := [], files := [], timeout := 5, timeout_time := none }

/-- A manager holding one unlocked wallet whose five-second window expires at
instant five. -/
def mExpired : WalletManager :=
  { wallets := [("a", wA)], files := [], timeout := 5, timeout_time := some 5 }

theorem outOf_snd {α : Type} (f : α → OutVal) (r : Except Err α × WalletManager) :
    (outOf f r).2 = r.2 := by
  obtain ⟨e, m⟩ := r
  cases e <;> rfl

theorem lookup_append {β : Type} (a : String) (l1 l2 : List (String × β)) :
    List.lookup a (l1 ++ l2) =
      match List.lookup a l1 with
      | some v => some v
      | none => List.lookup a l2 := by
  induction l1 with
  | nil => simp [List.lookup]
  | cons p t ih =>
    obtain ⟨k, v⟩ := p
    cases h : a == k <;> simp [List.lookup, h, ih]

theorem lookup_filter_self {β : Type} (name : String) (l : List (String × β)) :
    List.lookup name (l.filter (fun p => p.1 != name)) = none := by
  induction l with
  | nil => rfl
  | cons p t ih =>
    obtain ⟨k, v⟩ := p
    by_cases h : k = name
    · simp [List.filter, h, ih]
    · simp only [List.filter_cons]
      have hb : (k != name) = true := by simp [h]
      simp only [hb, if_pos]
      have hne : (name == k) = false := by simp [Ne.symm h]
      simp [List.lookup, hne, ih]

theorem lookup_filter_ne {β : Type} (a name : String) (h : a ≠ name) (l : List (String × β)) :
    List.lookup a (l.filter (fun p => p.1 != name)) = List.lookup a l := by
  induction l with
  | nil => rfl
  | cons p t ih =>
    obtain ⟨k, v⟩ := p
    by_cases hk : k = name
    · subst hk
      have hne : (a == k) = false := by simp [h]
      simp [List.filter, List.lookup, hne, ih]
    · have hb : (k != name) = true := by simp [hk]
      simp only [List.filter_cons, hb, if_pos]
      cases hak : a == k <;> simp [List.lookup, hak, ih]

theorem lookup_registryReplace_self (name : String) (w : Wallet) (ws : List (String × Wallet)) :
    List.lookup name (registryReplace name w ws) = some w := by
  unfold registryReplace
  rw [lookup_append, lookup_filter_self]
  simp [List.lookup]

theorem lookup_registryReplace_ne (a name : String) (h : a ≠ name) (w : Wallet)
    (ws : List (String × Wallet)) :
    List.lookup a (registryReplace name w ws) = List.lookup a ws := by
  unfold registryReplace
  rw [lookup_append, lookup_filter_ne a name h]
  cases hl : List.lookup a ws
  · have hne : (a == name) = false := by simp [h]
    simp [List.lookup, hne]
  · simp

theorem lookup_updateWallet_self (name : String) (f : Wallet → Wallet)
    (ws : List (String × Wallet)) :
    List.lookup name (updateWallet name f ws) = (List.lookup name ws).map f := by
  induction ws with
  | nil => rfl
  | cons p t ih =>
    obtain ⟨k, v⟩ := p
    simp only [updateWallet, List.map_cons] at ih ⊢
    by_cases hk : k = name
    · subst hk
      rw [if_pos rfl]
      simp [List.lookup, ih]
    · rw [if_neg hk]
      have hne : (name == k) = false := by simp [Ne.symm hk]
      simp [List.lookup, hne, ih]

theorem lookup_updateWallet_ne (name a : String) (h : a ≠ name) (f : Wallet → Wallet)
    (ws : List (String × Wallet)) :
    List.lookup a (updateWallet name f ws) = List.lookup a ws := by
  induction ws with
  | nil => rfl
  | cons p t ih =>
    obtain ⟨k, v⟩ := p
    simp only [updateWallet, List.map_cons] at ih ⊢
    by_cases hk : k = name
    · subst hk
      rw [if_pos rfl]
      have hne : (a == k) = false := by simp [fun hh : a = k => h hh]
      simp [List.lookup, hne, ih]
    · rw [if_neg hk]
      cases hak : a == k <;> simp [List.lookup, hak, ih]

theorem lookup_map_val (g : Wallet → Wallet) (a : String) (ws : List (String × Wallet)) :
    List.lookup a (ws.map (fun p => (p.1, g p.2))) = (List.lookup a ws).map g := by
  induction ws with
  | nil => rfl
  | cons p t ih =>
    obtain ⟨k, v⟩ := p
    cases h : a == k <;> simp [List.lookup, h, ih]

theorem lock_all_wallets_eq_map (ws : List (String × Wallet)) :
    lock_all_wallets ws = ws.map (fun p => (p.1, { p.2 with locked := true })) := by
  induction ws with
  | nil => rfl
  | cons p t ih =>
    obtain ⟨k, v⟩ := p
    simp only [lock_all_wallets, List.map_cons] at ih ⊢
    rw [ih]
    obtain ⟨l, pw, ks⟩ := v
    cases l <;> rfl

theorem lookup_lock_all (a : String) (ws : List (String × Wallet)) :
    List.lookup a (lock_all_wallets ws) =
      (List.lookup a ws).map (fun w => { w with locked := true }) := by
  rw [lock_all_wallets_eq_map]
  exact lookup_map_val (fun w => { w with locked := true }) a ws

theorem ct_none {m : WalletManager} (now : Nat) (h : m.timeout_time = none) :
    check_timeout now m = m := by
  unfold check_timeout
  rw [h]

theorem ct_expired {m : WalletManager} {tt : Nat} (now : Nat) (h : m.timeout_time = some tt)
    (hle : tt ≤ now) :
    check_timeout now m =
      { m with wallets := lock_all_wallets m.wallets, timeout_time := some (now + m.timeout) } := by
  unfold check_timeout
  rw [h]
  simp [hle, lock_all]

theorem ct_live {m : WalletManager} {tt : Nat} (now : Nat) (h : m.timeout_time = some tt)
    (hlt : now < tt) :
    check_timeout now m = { m with timeout_time := some (now + m.timeout) } := by
  unfold check_timeout
  rw [h]
  simp [Nat.not_le.mpr hlt]

theorem ct_files (now : Nat) (m : WalletManager) : (check_timeout now m).files = m.files := by
  unfold check_timeout
  split
  · rfl
  · split <;> rfl

theorem ct_timeout (now : Nat) (m : WalletManager) :
    (check_timeout now m).timeout = m.timeout := by
  unfold check_timeout
  split
  · rfl
  · split <;> rfl

theorem ct_timeout_time_some {m : WalletManager} {tt : Nat} (now : Nat)
    (h : m.timeout_time = some tt) :
    (check_timeout now m).timeout_time = some (now + m.timeout) := by
  unfold check_timeout
  rw [h]
  by_cases h2 : tt ≤ now <;> simp [h2, lock_all]

theorem ct_lookup_cases (now : Nat) (m : WalletManager) (a : String) :
    List.lookup a (check_timeout now m).wallets = List.lookup a m.wallets ∨
    List.lookup a (check_timeout now m).wallets =
      (List.lookup a m.wallets).map (fun w => { w with locked := true }) := by
  unfold check_timeout
  split
  · exact Or.inl rfl
  · split
    · right
      simp [lock_all, lookup_lock_all]
    · exact Or.inl rfl

theorem locked_update_self {w : Wallet} (hw : w.locked = true) :
    { w with locked := true } = w := by
  obtain ⟨l, pw, ks⟩ := w
  simp only at hw
  rw [hw]

theorem ct_lookup_locked {m : WalletManager} {a : String} {w : Wallet} (now : Nat)
    (h : List.lookup a m.wallets = some w) (hw : w.locked = true) :
    List.lookup a (check_timeout now m).wallets = some w := by
  rcases ct_lookup_cases now m a with h1 | h1
  · rw [h1, h]
  · rw [h1, h]
    simp [locked_update_self hw]

theorem ct_lookup_none {m : WalletManager} {a : String} (now : Nat)
    (h : List.lookup a m.wallets = none) :
    List.lookup a (check_timeout now m).wallets = none := by
  rcases ct_lookup_cases now m a with h1 | h1
  · rw [h1, h]
  · rw [h1, h]
    rfl

theorem wallet_unlock_ok {pw : String} {w w2 : Wallet} (h : Wallet.unlock pw w = .ok w2) :
    w2 = { w with locked := false } ∧ pw = w.password := by
  unfold Wallet.unlock at h
  by_cases hp : pw = w.password
  · rw [if_pos hp] at h
    injection h with h2
    exact ⟨h2.symm, hp⟩
  · rw [if_neg hp] at h
    cases h

theorem wallet_unlock_err {pw : String} {w : Wallet} {e : Err}
    (h : Wallet.unlock pw w = .error e) : e = .BadPassword ∧ pw ≠ w.password := by
  unfold Wallet.unlock at h
  by_cases hp : pw = w.password
  · rw [if_pos hp] at h
    cases h
  · rw [if_neg hp] at h
    injection h with h2
    exact ⟨h2.symm, hp⟩

theorem list_walletsBody_snd (m : WalletManager) : (list_walletsBody m).2 = m := rfl

theorem list_keysBody_snd (name pw : String) (m : WalletManager) :
    (list_keysBody name pw m).2 = m := by
  unfold list_keysBody
  split
  · rfl
  · split
    · rfl
    · split <;> rfl

theorem get_public_keysBody_snd (m : WalletManager) : (get_public_keysBody m).2 = m := by
  unfold get_public_keysBody
  split
  · rfl
  · dsimp only
    split <;> rfl

theorem get_my_signaturesBody_snd (chain_id : Nat) (m : WalletManager) :
    (get_my_signaturesBody chain_id m).2 = m := by
  unfold get_my_signaturesBody
  split
  · rfl
  · dsimp only
    split <;> rfl

theorem sign_transactionBody_snd (txn : Txn) (keys : List PubKey) (chain_id : Nat)
    (m : WalletManager) : (sign_transactionBody txn keys chain_id m).2 = m := by
  unfold sign_transactionBody
  split <;> rfl

theorem sign_digestBody_snd (d : Digest) (k : PubKey) (m : WalletManager) :
    (sign_digestBody d k m).2 = m := rfl

theorem preserves_updateWallet {n : String} {f : Wallet → Wallet}
    (hf : ∀ w, w.locked = false → (f w).locked = false) (ws : List (String × Wallet))
    (a : String) (w : Wallet) (h : List.lookup a ws = some w) (hw : w.locked = false) :
    ∃ w2, List.lookup a (updateWallet n f ws) = some w2 ∧ w2.locked = false := by
  by_cases ha : a = n
  · subst ha
    refine ⟨f w, ?_, hf w hw⟩
    rw [lookup_updateWallet_self, h]
    rfl
  · exact ⟨w, by rw [lookup_updateWallet_ne n a ha, h], hw⟩

theorem findSigForKey_eq (d : Digest) (k : PubKey) (ws : List (String × Wallet)) :
    findSigForKey d k ws = firstMatchSig ws d k := by
  induction ws with
  | nil => rfl
  | cons p t ih =>
    unfold findSigForKey firstMatchSig
    unfold firstMatchSig at ih
    by_cases hl : p.2.is_locked
    · simp [hl, ih, List.filter_cons]
    · simp only [List.filter_cons]
      have hb : (!p.2.is_locked) = true := by simp [hl]
      simp only [hb, if_pos, List.findSome?_cons]
      cases htry : p.2.try_sign_digest d k <;> simp [hl, htry, ih]

theorem scanSign_eq (d : Digest) (k : PubKey) (ws : List (String × Wallet)) :
    scanSign d k ws =
      match firstMatchSig ws d k with
      | some s => .ok s
      | none => .error (.MissingPublicKey k) := by
  rw [← findSigForKey_eq]
  induction ws with
  | nil => rfl
  | cons p t ih =>
    unfold scanSign findSigForKey
    by_cases hl : p.2.is_locked
    · simp [hl, ih]
    · cases htry : p.2.try_sign_digest d k <;> simp [hl, htry, ih]

theorem signTxnKeys_eq (ws : List (String × Wallet)) (d : Digest) (ks : List PubKey) :
    ∀ acc, signTxnKeys ws d ks acc =
      match collectSigs ws d ks with
      | .ok sigs => .ok (acc ++ sigs)
      | .error e => .error e := by
  induction ks with
  | nil => intro acc; simp [signTxnKeys, collectSigs]
  | cons k ks ih =>
    intro acc
    unfold signTxnKeys collectSigs
    rw [findSigForKey_eq]
    cases h : firstMatchSig ws d k
    · rfl
    · rename_i s
      dsimp only
      rw [ih (acc ++ [s])]
      cases h2 : collectSigs ws d ks <;> simp

theorem ct_idem {m : WalletManager} (now : Nat) (hd : 0 < m.timeout) :
    check_timeout now (check_timeout now m) = check_timeout now m := by
  obtain ⟨ws, fs, d, tt0⟩ := m
  have hd2 : 0 < d := hd
  cases tt0 with
  | none => rfl
  | some tt =>
    have hin : ¬(now + d ≤ now) := Nat.not_le.mpr (Nat.lt_add_of_pos_right hd2)
    by_cases h2 : tt ≤ now <;> simp [check_timeout, lock_all, h2, hin]

theorem mem_setInsert {α : Type} [DecidableEq α] (xs : List α) (x y : α) :
    y ∈ setInsert xs x ↔ y ∈ xs ∨ y = x := by
  unfold setInsert
  split
  · rename_i hx
    constructor
    · exact Or.inl
    · rintro (h | h)
      · exact h
      · rw [h]; exact hx
  · simp [List.mem_append]

theorem mem_setUnion {α : Type} [DecidableEq α] (ys : List α) (y : α) :
    ∀ xs, y ∈ setUnion xs ys ↔ y ∈ xs ∨ y ∈ ys := by
  induction ys with
  | nil => intro xs; simp [setUnion]
  | cons z zs ih =>
    intro xs
    unfold setUnion at ih ⊢
    simp only [List.foldl_cons]
    rw [ih (setInsert xs z), mem_setInsert]
    simp only [List.mem_cons]
    tauto

theorem pubKeysUnion_aux (k : PubKey) :
    ∀ (ws : List (String × Wallet)) (acc : List PubKey),
      (k ∈ ws.foldl
        (fun acc p => if p.2.is_locked then acc else setUnion acc p.2.list_public_keys) acc) ↔
      k ∈ acc ∨ ∃ p ∈ ws, p.2.is_locked = false ∧ k ∈ p.2.list_public_keys := by
  intro ws
  induction ws with
  | nil => intro acc; simp
  | cons p t ih =>
    intro acc
    simp only [List.foldl_cons]
    rw [ih]
    by_cases hl : p.2.is_locked
    · simp only [hl, if_pos]
      simp only [List.mem_cons]
      constructor
      · rintro (h | ⟨q, hq, hql, hqk⟩)
        · exact Or.inl h
        · exact Or.inr ⟨q, Or.inr hq, hql, hqk⟩
      · rintro (h | ⟨q, (hq | hq), hql, hqk⟩)
        · exact Or.inl h
        · rw [hq] at hql; rw [hl] at hql; cases hql
        · exact Or.inr ⟨q, hq, hql, hqk⟩
    · have hl2 : p.2.is_locked = false := by simp [Bool.not_eq_true] at hl; exact hl
      simp only [hl2, Bool.false_eq_true, if_neg, not_false_eq_true]
      rw [mem_setUnion]
      simp only [List.mem_cons]
      constructor
      · rintro ((h | h) | ⟨q, hq, hql, hqk⟩)
        · exact Or.inl h
        · exact Or.inr ⟨p, Or.inl rfl, hl2, h⟩
        · exact Or.inr ⟨q, Or.inr hq, hql, hqk⟩
      · rintro (h | ⟨q, (hq | hq), hql, hqk⟩)
        · exact Or.inl (Or.inl h)
        · rw [hq] at hqk; exact Or.inl (Or.inr hqk)
        · exact Or.inr ⟨q, hq, hql, hqk⟩

theorem mem_pubKeysUnion (ws : List (String × Wallet)) (k : PubKey) :
    k ∈ pubKeysUnion ws ↔ ∃ p ∈ ws, p.2.is_locked = false ∧ k ∈ p.2.list_public_keys := by
  unfold pubKeysUnion
  rw [pubKeysUnion_aux]
  simp

theorem pubKeysUnion_eq_nil :
    ∀ (ws : List (String × Wallet)),
      (∀ p ∈ ws, p.2.is_locked = false → p.2.keys = []) → pubKeysUnion ws = [] := by
  have haux : ∀ (l : List (String × Wallet)),
      (∀ p ∈ l, p.2.is_locked = false → p.2.keys = []) →
      ∀ acc, l.foldl
        (fun acc p => if p.2.is_locked then acc else setUnion acc p.2.list_public_keys) acc
        = acc := by
    intro l
    induction l with
    | nil => intro _ acc; rfl
    | cons p t ih =>
      intro hl acc
      simp only [List.foldl_cons]
      have hstep : (if p.2.is_locked then acc else setUnion acc p.2.list_public_keys) = acc := by
        by_cases hp : p.2.is_locked
        · simp [hp]
        · have hp2 : p.2.is_locked = false := by
            simp [Bool.not_eq_true] at hp; exact hp
          have hk : p.2.keys = [] := hl p (List.mem_cons_self p t) hp2
          simp [hp2, setUnion, Wallet.list_public_keys, hk]
      rw [hstep]
      exact ih (fun q hq => hl q (List.mem_cons_of_mem _ hq)) acc
  intro ws h
  exact haux ws h []

theorem import_key_locked (priv : PrivKey) (w : Wallet) :
    (Wallet.import_key priv w).locked = w.locked := by
  unfold Wallet.import_key
  split <;> rfl

theorem remove_key_locked (k : PubKey) (w : Wallet) :
    (Wallet.remove_key k w).locked = w.locked := rfl

theorem create_key_locked (priv : PrivKey) (w : Wallet) :
    (Wallet.create_key priv w).locked = w.locked := rfl

theorem import_keyBody_cases (n : String) (k : PrivKey) (m : WalletManager) :
    (import_keyBody n k m).2 = m ∨
    (import_keyBody n k m).2 =
      { m with wallets := updateWallet n (Wallet.import_key k) m.wallets } := by
  unfold import_keyBody
  split
  · exact Or.inl rfl
  · split
    · exact Or.inl rfl
    · exact Or.inr rfl

theorem remove_keyBody_cases (n pw : String) (k : PubKey) (m : WalletManager) :
    (remove_keyBody n pw k m).2 = m ∨
    (remove_keyBody n pw k m).2 =
      { m with wallets := updateWallet n (Wallet.remove_key k) m.wallets } := by
  unfold remove_keyBody
  split
  · exact Or.inl rfl
  · split
    · exact Or.inl rfl
    · split
      · exact Or.inl rfl
      · exact Or.inr rfl

theorem create_keyBody_cases (n kt : String) (g : Nat) (m : WalletManager) :
    (create_keyBody n kt g m).2 = m ∨
    (create_keyBody n kt g m).2 =
      { m with wallets := updateWallet n (Wallet.create_key g) m.wallets } := by
  unfold create_keyBody
  split
  · exact Or.inl rfl
  · split
    · exact Or.inl rfl
    · exact Or.inr rfl

theorem unlockAt_cases (n pw : String) (m : WalletManager) :
    (unlockAt n pw m).2 = m ∨
    ∃ w2 : Wallet, w2.locked = false ∧
      (unlockAt n pw m).2 = { m with wallets := updateWallet n (fun _ => w2) m.wallets } := by
  unfold unlockAt
  split
  · exact Or.inl rfl
  · split
    · exact Or.inl rfl
    · split
      · exact Or.inl rfl
      · rename_i w _ _ w2 hw2
        right
        refine ⟨w2, ?_, rfl⟩
        rw [(wallet_unlock_ok hw2).1]

theorem benignStep (op : MOp) (hop : nonLockingOp op = true) (now : Nat) (m : WalletManager)
    (hd : 0 < m.timeout) :
    (runOp op now m).2.timeout = m.timeout ∧
    (runOp op now m).2.timeout_time = (check_timeout now m).timeout_time ∧
    (∀ a w, List.lookup a (check_timeout now m).wallets = some w → w.locked = false →
      ∃ w2, List.lookup a (runOp op now m).2.wallets = some w2 ∧ w2.locked = false) := by
  cases op with
  | list_wallets =>
    have h : (runOp MOp.list_wallets now m).2 = check_timeout now m := by
      show (outOf OutVal.strs (list_wallets now m)).2 = _
      rw [outOf_snd]
      exact list_walletsBody_snd _
    rw [h]
    exact ⟨ct_timeout now m, rfl, fun a w hl hw => ⟨w, hl, hw⟩⟩
  | list_keys n pw =>
    have h : (runOp (MOp.list_keys n pw) now m).2 = check_timeout now m := by
      show (outOf OutVal.keyList (list_keys now n pw m)).2 = _
      rw [outOf_snd]
      exact list_keysBody_snd n pw _
    rw [h]
    exact ⟨ct_timeout now m, rfl, fun a w hl hw => ⟨w, hl, hw⟩⟩
  | get_public_keys =>
    have h : (runOp MOp.get_public_keys now m).2 = check_timeout now m := by
      show (outOf OutVal.pubs (get_public_keys now m)).2 = _
      rw [outOf_snd]
      exact get_public_keysBody_snd _
    rw [h]
    exact ⟨ct_timeout now m, rfl, fun a w hl hw => ⟨w, hl, hw⟩⟩
  | get_my_signatures cid =>
    have h : (runOp (MOp.get_my_signatures cid) now m).2 = check_timeout now m := by
      show (outOf OutVal.sigSet (get_my_signatures now cid m)).2 = _
      rw [outOf_snd]
      exact get_my_signaturesBody_snd cid _
    rw [h]
    exact ⟨ct_timeout now m, rfl, fun a w hl hw => ⟨w, hl, hw⟩⟩
  | sign_transaction t ks cid =>
    have h : (runOp (MOp.sign_transaction t ks cid) now m).2 = check_timeout now m := by
      show (outOf OutVal.txnOut (sign_transaction now t ks cid m)).2 = _
      rw [outOf_snd]
      exact sign_transactionBody_snd t ks cid _
    rw [h]
    exact ⟨ct_timeout now m, rfl, fun a w hl hw => ⟨w, hl, hw⟩⟩
  | sign_digest d k =>
    have h : (runOp (MOp.sign_digest d k) now m).2 = check_timeout now m := by
      show (outOf OutVal.oneSig (sign_digest now d k m)).2 = _
      rw [outOf_snd]
      exact sign_digestBody_snd d k _
    rw [h]
    exact ⟨ct_timeout now m, rfl, fun a w hl hw => ⟨w, hl, hw⟩⟩
  | import_key n k =>
    have h : (runOp (MOp.import_key n k) now m).2 = (import_keyBody n k (check_timeout now m)).2 := by
      show (outOf (fun _ => OutVal.unit) (import_key now n k m)).2 = _
      rw [outOf_snd]
      rfl
    rcases import_keyBody_cases n k (check_timeout now m) with h2 | h2
    · rw [h, h2]
      exact ⟨ct_timeout now m, rfl, fun a w hl hw => ⟨w, hl, hw⟩⟩
    · rw [h, h2]
      refine ⟨ct_timeout now m, rfl, ?_⟩
      intro a w hl hw
      exact preserves_updateWallet
        (fun w0 hw0 => by rw [import_key_locked]; exact hw0) _ a w hl hw
  | remove_key n pw k =>
    have h : (runOp (MOp.remove_key n pw k) now m).2 =
        (remove_keyBody n pw k (check_timeout now m)).2 := by
      show (outOf (fun _ => OutVal.unit) (remove_key now n pw k m)).2 = _
      rw [outOf_snd]
      rfl
    rcases remove_keyBody_cases n pw k (check_timeout now m) with h2 | h2
    · rw [h, h2]
      exact ⟨ct_timeout now m, rfl, fun a w hl hw => ⟨w, hl, hw⟩⟩
    · rw [h, h2]
      refine ⟨ct_timeout now m, rfl, ?_⟩
      intro a w hl hw
      exact preserves_updateWallet
        (fun w0 hw0 => by rw [remove_key_locked]; exact hw0) _ a w hl hw
  | create_key n kt g =>
    have h : (runOp (MOp.create_key n kt g) now m).2 =
        (create_keyBody n kt g (check_timeout now m)).2 := by
      show (outOf OutVal.pub (create_key now n kt g m)).2 = _
      rw [outOf_snd]
      rfl
    rcases create_keyBody_cases n kt g (check_timeout now m) with h2 | h2
    · rw [h, h2]
      exact ⟨ct_timeout now m, rfl, fun a w hl hw => ⟨w, hl, hw⟩⟩
    · rw [h, h2]
      refine ⟨ct_timeout now m, rfl, ?_⟩
      intro a w hl hw
      exact preserves_updateWallet
        (fun w0 hw0 => by rw [create_key_locked]; exact hw0) _ a w hl hw
  | unlock n pw =>
    have h : (runOp (MOp.unlock n pw) now m).2 =
        (unlockBody now n pw (check_timeout now m)).2 := by
      show (outOf (fun _ => OutVal.unit) (unlock now n pw m)).2 = _
      rw [outOf_snd]
      rfl
    have hdc : 0 < (check_timeout now m).timeout := by rw [ct_timeout]; exact hd
    cases hlook : List.lookup n (check_timeout now m).wallets with
    | some w0 =>
      have hbody : (unlockBody now n pw (check_timeout now m)).2 =
          (unlockAt n pw (check_timeout now m)).2 := by
        unfold unlockBody
        rw [hlook]
        rfl
      rcases unlockAt_cases n pw (check_timeout now m) with h2 | ⟨w2, hw2, h2⟩
      · rw [h, hbody, h2]
        exact ⟨ct_timeout now m, rfl, fun a w hl hw => ⟨w, hl, hw⟩⟩
      · rw [h, hbody, h2]
        refine ⟨ct_timeout now m, rfl, ?_⟩
        intro a w hl hw
        exact preserves_updateWallet (fun w0 _ => hw2) _ a w hl hw
    | none =>
      have hopen : openWallet now n (check_timeout now m) = openBody n (check_timeout now m) := by
        unfold openWallet
        rw [ct_idem now hd]
      by_cases hv : valid_filename n
      case neg =>
        have hbody : (unlockBody now n pw (check_timeout now m)).2 = check_timeout now m := by
          unfold unlockBody
          rw [hlook]
          simp only [Option.isNone_none, if_pos]
          rw [hopen]
          unfold openBody
          rw [if_pos (show (!valid_filename n) = true by simp [hv])]
        rw [h, hbody]
        exact ⟨ct_timeout now m, rfl, fun a w hl hw => ⟨w, hl, hw⟩⟩
      case pos =>
        cases hfile : List.lookup (n ++ ".wallet") (check_timeout now m).files with
        | none =>
          have hbody : (unlockBody now n pw (check_timeout now m)).2 = check_timeout now m := by
            unfold unlockBody
            rw [hlook]
            simp only [Option.isNone_none, if_pos]
            rw [hopen]
            unfold openBody
            rw [if_neg (show ¬(!valid_filename n) = true by simp [hv]), hfile]
          rw [h, hbody]
          exact ⟨ct_timeout now m, rfl, fun a w hl hw => ⟨w, hl, hw⟩⟩
        | some f =>
          have hbody : (unlockBody now n pw (check_timeout now m)).2 =
              (unlockAt n pw
                { check_timeout now m with
                  wallets := registryReplace n
                    { locked := true, password := f.password, keys := f.keys }
                    (check_timeout now m).wallets }).2 := by
            unfold unlockBody
            rw [hlook]
            simp only [Option.isNone_none, if_pos]
            rw [hopen]
            unfold openBody
            rw [if_neg (show ¬(!valid_filename n) = true by simp [hv]), hfile]
          have hpres2 : ∀ a w, List.lookup a (check_timeout now m).wallets = some w →
              w.locked = false →
              ∃ w2, List.lookup a (registryReplace n
                { locked := true, password := f.password, keys := f.keys }
                (check_timeout now m).wallets) = some w2 ∧ w2.locked = false := by
            intro a w hl hw
            have hne : a ≠ n := by
              intro hh
              rw [hh, hlook] at hl
              cases hl
            refine ⟨w, ?_, hw⟩
            rw [lookup_registryReplace_ne a n hne, hl]
          rcases unlockAt_cases n pw
              { check_timeout now m with
                wallets := registryReplace n
                  { locked := true, password := f.password, keys := f.keys }
                  (check_timeout now m).wallets } with h2 | ⟨w2, hw2, h2⟩
          · rw [h, hbody, h2]
            refine ⟨ct_timeout now m, rfl, ?_⟩
            intro a w hl hw
            exact hpres2 a w hl hw
          · rw [h, hbody, h2]
            refine ⟨ct_timeout now m, rfl, ?_⟩
            intro a w hl hw
            obtain ⟨w3, hw3, hw3u⟩ := hpres2 a w hl hw
            exact preserves_updateWallet (fun w0 _ => hw2) _ a w3 hw3 hw3u
  | create g n => simp [nonLockingOp] at hop
  | openW n => simp [nonLockingOp] at hop
  | lock_all => simp [nonLockingOp] at hop
  | lock n => simp [nonLockingOp] at hop
  | set_timeout t => simp [nonLockingOp] at hop
  | own_and_use_wallet n w => simp [nonLockingOp] at hop

theorem ct_isEmpty (now : Nat) (m : WalletManager) :
    (check_timeout now m).wallets.isEmpty = m.wallets.isEmpty := by
  unfold check_timeout
  split
  · rfl
  · split
    · rcases h : m.wallets with _ | ⟨p, t⟩ <;>
        simp [lock_all, lock_all_wallets_eq_map, h]
    · rfl

theorem ct_wallets_nil (now : Nat) {m : WalletManager} (h : m.wallets = []) :
    (check_timeout now m).wallets = [] := by
  unfold check_timeout
  split
  · exact h
  · split <;> simp [lock_all, lock_all_wallets_eq_map, h]

theorem no_slash_filenameOf {name : String} (h : '/' ∉ name.toList) :
    filenameOf name = name := by
  unfold filenameOf
  rw [if_neg h]

theorem create_invalid {name : String} (now genKey : Nat) (m : WalletManager)
    (hv : valid_filename name = false) :
    create now genKey name m = (.error .InvalidName, check_timeout now m) := by
  unfold create createBody
  rw [if_pos (show (!valid_filename name) = true by rw [hv]; rfl)]

theorem openWallet_invalid {name : String} (now : Nat) (m : WalletManager)
    (hv : valid_filename name = false) :
    openWallet now name m = (.error .InvalidName, check_timeout now m) := by
  unfold openWallet openBody
  rw [if_pos (show (!valid_filename name) = true by rw [hv]; rfl)]

theorem openWallet_nofile {name : String} (now : Nat) (m : WalletManager)
    (hv : valid_filename name = true)
    (hf : List.lookup (name ++ ".wallet") m.files = none) :
    openWallet now name m = (.error .WalletNonexistent, check_timeout now m) := by
  unfold openWallet openBody
  rw [if_neg (show ¬(!valid_filename name) = true by simp [hv])]
  rw [ct_files, hf]

theorem openWallet_some {name : String} {f : WalletFile} (now : Nat) (m : WalletManager)
    (hv : valid_filename name = true)
    (hf : List.lookup (name ++ ".wallet") m.files = some f) :
    openWallet now name m =
      (.ok (),
       { check_timeout now m with
         wallets := registryReplace name
           { locked := true, password := f.password, keys := f.keys }
           (check_timeout now m).wallets }) := by
  unfold openWallet openBody
  rw [if_neg (show ¬(!valid_filename name) = true by simp [hv])]
  dsimp only
  rw [ct_files, hf]

theorem lock_none {now : Nat} {name : String} {m : WalletManager}
    (h : List.lookup name (check_timeout now m).wallets = none) :
    lock now name m = (.error .WalletNonexistent, check_timeout now m) := by
  unfold lock lockBody
  rw [h]

theorem lock_some_locked {now : Nat} {name : String} {m : WalletManager} {w : Wallet}
    (h : List.lookup name (check_timeout now m).wallets = some w) (hw : w.locked = true) :
    lock now name m = (.ok (), check_timeout now m) := by
  unfold lock lockBody
  rw [h]
  dsimp only
  rw [if_pos (show w.is_locked = true from hw)]

theorem lock_some_unlocked {now : Nat} {name : String} {m : WalletManager} {w : Wallet}
    (h : List.lookup name (check_timeout now m).wallets = some w) (hw : w.locked = false) :
    lock now name m =
      (.ok (),
       { check_timeout now m with
         wallets := updateWallet name Wallet.lock (check_timeout now m).wallets }) := by
  unfold lock lockBody
  rw [h]
  dsimp only
  rw [if_neg (show ¬w.is_locked = true by rw [show w.is_locked = w.locked from rfl, hw]; simp)]

theorem lock_locks (now : Nat) {name : String} {m : WalletManager} {w : Wallet}
    (h : List.lookup name m.wallets = some w) :
    (lock now name m).1 = .ok () ∧
    List.lookup name (lock now name m).2.wallets = some { w with locked := true } := by
  rcases ct_lookup_cases now m name with hc | hc
  · rw [h] at hc
    cases hw : w.locked
    · rw [lock_some_unlocked hc hw]
      refine ⟨rfl, ?_⟩
      dsimp only
      rw [lookup_updateWallet_self, hc]
      rfl
    · rw [lock_some_locked hc hw]
      refine ⟨rfl, ?_⟩
      dsimp only
      rw [hc, locked_update_self hw]
  · rw [h] at hc
    have hc2 : List.lookup name (check_timeout now m).wallets =
        some { w with locked := true } := hc
    rw [lock_some_locked hc2 rfl]
    exact ⟨rfl, hc2⟩

theorem unlock_registered {now : Nat} {name pw : String} {m : WalletManager} {w : Wallet}
    (h : List.lookup name (check_timeout now m).wallets = some w) :
    unlock now name pw m = unlockAt name pw (check_timeout now m) := by
  unfold unlock unlockBody
  rw [h]
  rfl

theorem unlock_unregistered {now : Nat} {name pw : String} {m : WalletManager}
    (h : List.lookup name (check_timeout now m).wallets = none) :
    unlock now name pw m =
      match openWallet now name (check_timeout now m) with
      | (.error e, m2) => (.error e, m2)
      | (.ok _, m2) => unlockAt name pw m2 := by
  unfold unlock unlockBody
  rw [h]
  rfl

theorem unlockAt_unlocked {name pw : String} {m : WalletManager} {w : Wallet}
    (h : List.lookup name m.wallets = some w) (hw : w.locked = false) :
    unlockAt name pw m = (.error .WalletAlreadyUnlocked, m) := by
  unfold unlockAt
  rw [h]
  dsimp only
  rw [if_pos (show (!w.is_locked) = true by rw [show w.is_locked = w.locked from rfl, hw]; rfl)]

theorem unlockAt_locked_bad {name pw : String} {m : WalletManager} {w : Wallet}
    (h : List.lookup name m.wallets = some w) (hw : w.locked = true) (hpw : pw ≠ w.password) :
    unlockAt name pw m = (.error .BadPassword, m) := by
  unfold unlockAt
  rw [h]
  dsimp only
  rw [if_neg (show ¬(!w.is_locked) = true by
    rw [show w.is_locked = w.locked from rfl, hw]; simp)]
  rw [show Wallet.unlock pw w = .error .BadPassword by
    unfold Wallet.unlock; rw [if_neg hpw]]

theorem unlockAt_locked_good {name pw : String} {m : WalletManager} {w : Wallet}
    (h : List.lookup name m.wallets = some w) (hw : w.locked = true) (hpw : pw = w.password) :
    unlockAt name pw m =
      (.ok (),
       { m with wallets := updateWallet name (fun _ => { w with locked := false }) m.wallets }) := by
  unfold unlockAt
  rw [h]
  dsimp only
  rw [if_neg (show ¬(!w.is_locked) = true by
    rw [show w.is_locked = w.locked from rfl, hw]; simp)]
  rw [show Wallet.unlock pw w = .ok { w with locked := false } by
    unfold Wallet.unlock; rw [if_pos hpw]]

theorem unlock_locked_correct (now : Nat) {name pw : String} {m : WalletManager} {w : Wallet}
    (h : List.lookup name m.wallets = some w) (hl : w.locked = true) (hpw : pw = w.password) :
    (unlock now name pw m).1 = .ok () ∧
    List.lookup name (unlock now name pw m).2.wallets = some { w with locked := false } := by
  have hc : List.lookup name (check_timeout now m).wallets = some w := ct_lookup_locked now h hl
  rw [unlock_registered hc, unlockAt_locked_good hc hl hpw]
  refine ⟨rfl, ?_⟩
  dsimp only
  rw [lookup_updateWallet_self, hc]
  rfl

theorem create_success {name : String} {m : WalletManager} (now genKey : Nat)
    (hv : valid_filename name = true)
    (hf : List.lookup (name ++ ".wallet") m.files = none) :
    create now genKey name m =
      (.ok (gen_password genKey),
       { check_timeout now m with
         files := filesReplace (name ++ ".wallet")
           { password := gen_password genKey, keys := [] } (check_timeout now m).files,
         wallets := registryReplace name
           { locked := false, password := gen_password genKey, keys := [] }
           (check_timeout now m).wallets }) := by
  unfold create createBody
  rw [if_neg (show ¬(!valid_filename name) = true by simp [hv])]
  dsimp only
  rw [ct_files, hf]
  have hu1 : Wallet.unlock (gen_password genKey)
      { locked := true, password := gen_password genKey, keys := [] } =
      .ok { locked := false, password := gen_password genKey, keys := [] } := by
    unfold Wallet.unlock
    rw [if_pos rfl]
  have hu2 : Wallet.unlock (gen_password genKey)
      (Wallet.lock { locked := false, password := gen_password genKey, keys := [] }) =
      .ok { locked := false, password := gen_password genKey, keys := [] } := by
    unfold Wallet.lock Wallet.unlock
    rw [if_pos rfl]
  rw [hu1]
  dsimp only
  rw [hu2]
  rfl

/-- A manager holding one locked wallet with the timeout disabled. -/
def mLocked : WalletManager :=
  { wallets := [("a", wB)], files := [], timeout := 5, timeout_time := none }

/-- A manager holding one unlocked keyless wallet with the timeout disabled. -/
def mUnlocked : WalletManager :=
  { wallets := [("a", wA)], files := [], timeout := 5, timeout_time := none }

/-- A manager that holds no wallets but whose directory holds a persisted
wallet file for the name b. -/
def mFile : WalletManager :=
  { wallets := [], files := [("b.wallet", { password := "pw", keys := [] })],
    timeout := 5, timeout_time := none }

/-- A two-call trace of checked read-only operations at instants three and
seven. -/
def trW : List (Nat × MOp) := [(3, MOp.list_wallets), (7, MOp.list_wallets)]

/-- C6: with a configured timeout duration d, a wallet that is unlocked stays
unlocked across any sequence of checked manager calls that do not themselves
lock or replace it, provided each call arrives strictly before the expiry in
force when it arrives — every checked call slides the expiry to its instant
plus d, so successive gaps strictly below d qualify; and any instant at least
the final expiry (a gap of at least d) makes the next mandatory
`check_timeout` observe the wallet locked. -/
theorem c6_sliding_window :
    ∀ (tr : List (Nat × MOp)) (d e : Nat) (name : String) (w : Wallet) (m : WalletManager),
      m.timeout = d → 0 < d → m.timeout_time = some e →
      List.lookup name m.wallets = some w → w.locked = false →
      tr.all (fun p => nonLockingOp p.2) = true →
      timesOK d e (tr.map Prod.fst) = true →
      ((∃ w1, List.lookup name (runTrace tr m).wallets = some w1 ∧ w1.locked = false) ∧
       (runTrace tr m).timeout = d ∧
       (runTrace tr m).timeout_time = some (expiryAfter d e (tr.map Prod.fst)) ∧
       (∀ T, expiryAfter d e (tr.map Prod.fst) ≤ T →
         ∃ w2, List.lookup name (check_timeout T (runTrace tr m)).wallets = some w2 ∧
           w2.locked = true)) := by
  intro tr
  induction tr with
  | nil =>
    intro d e name w m h1 h2 h3 h4 h5 h6 h7
    refine ⟨⟨w, h4, h5⟩, h1, h3, ?_⟩
    intro T hT
    have hct := ct_expired T h3 hT
    refine ⟨{ w with locked := true }, ?_, rfl⟩
    show List.lookup name (check_timeout T m).wallets = _
    rw [hct]
    dsimp only
    rw [lookup_lock_all, h4]
    rfl
  | cons p rest ih =>
    obtain ⟨t, op⟩ := p
    intro d e name w m h1 h2 h3 h4 h5 h6 h7
    simp only [List.map_cons, timesOK, Bool.and_eq_true, decide_eq_true_eq] at h7
    obtain ⟨hlt, h7r⟩ := h7
    simp only [List.all_cons, Bool.and_eq_true] at h6
    obtain ⟨hop, h6r⟩ := h6
    have hmc : check_timeout t m = { m with timeout := d, timeout_time := some (t + d) } := by
      have hx := ct_live t h3 hlt
      rw [h1] at hx
      exact hx
    obtain ⟨hs1, hs2, hs3⟩ := benignStep op hop t m (h1 ▸ h2)
    obtain ⟨w1, hw1l, hw1u⟩ := hs3 name w (by rw [hmc]; exact h4) h5
    have hto : (runOp op t m).2.timeout = d := hs1.trans h1
    have htt : (runOp op t m).2.timeout_time = some (t + d) := by
      rw [hs2, hmc]
    exact ih d (t + d) name w1 (runOp op t m).2 hto h2 htt hw1l hw1u h6r h7r

/-- C6 witness: a concrete unlocked wallet, a five-second window expiring at
instant five, checked calls at instants three and seven (gaps below five), and
a check at instant twelve (equal to the final expiry) that locks it. -/
theorem c6_sliding_window_witness :
    (∃ w1, List.lookup "a" (runTrace trW mExpired).wallets = some w1 ∧ w1.locked = false) ∧
    (∃ w2, List.lookup "a" (check_timeout 12 (runTrace trW mExpired)).wallets = some w2 ∧
      w2.locked = true) := by
  have h := c6_sliding_window trW 5 5 "a" wA mExpired rfl (by decide) rfl (by decide) rfl
    (by decide) (by decide)
  exact ⟨h.1, h.2.2.2 12 (by decide)⟩

/-- C1: `sign_digest` and `sign_transaction` scan the registry in order,
skipping locked wallets; for each requested key the first unlocked wallet
whose `try_sign_digest` yields a signature supplies it and the scan for that
key stops (`firstMatchSig` is exactly that first-match scan over the unlocked
wallets in registry order), and when no unlocked wallet produces one the
operation fails MissingPublicKey naming that key; `sign_transaction` appends
the per-key signatures to those the transaction already carries. -/
theorem c1_sign_first_match :
    (∀ now d k m,
      sign_digest now d k m =
        ((match firstMatchSig (check_timeout now m).wallets d k with
          | some s => Except.ok s
          | none => Except.error (Err.MissingPublicKey k)),
         check_timeout now m)) ∧
    (∀ now txn keys chain_id m,
      sign_transaction now txn keys chain_id m =
        ((match collectSigs (check_timeout now m).wallets (txn.sig_digest chain_id) keys with
          | Except.ok sigs => Except.ok { txn with signatures := txn.signatures ++ sigs }
          | Except.error e => Except.error e),
         check_timeout now m)) := by
  constructor
  · intro now d k m
    unfold sign_digest sign_digestBody
    rw [scanSign_eq]
  · intro now txn keys chain_id m
    unfold sign_transaction sign_transactionBody
    rw [signTxnKeys_eq]
    cases h : collectSigs (check_timeout now m).wallets (txn.sig_digest chain_id) keys <;>
      dsimp only

/-- C2 counterexample: `own_and_use_wallet` is a state-mutating public manager
operation other than `lock_all`, yet on a manager whose window has expired it
leaves the unlocked wallet unlocked and the expiry unmoved, unlike an
operation that performs the `check_timeout` step first. -/
theorem c2_counterexample :
    MOp.own_and_use_wallet "b" wB ≠ MOp.lock_all ∧
    (runOp (MOp.own_and_use_wallet "b" wB) 10 mExpired).2 ≠
      (runBody (MOp.own_and_use_wallet "b" wB) 10 (check_timeout 10 mExpired)).2 := by
  decide

/-- C2 (amended): every state-observing or state-mutating public manager
operation except `lock_all`, `set_timeout` and `own_and_use_wallet` performs
the `check_timeout` step first; that step, when the expiry is not the disabled
sentinel, locks every unlocked wallet once the instant has reached the expiry
and in either case slides the expiry to the instant plus the configured
duration, and does nothing when the sentinel disables the timeout. -/
theorem c2_checked_operations :
    (∀ op, isChecked op = true → ∀ now m,
      runOp op now m = runBody op now (check_timeout now m)) ∧
    (∀ now m tt, m.timeout_time = some tt → tt ≤ now →
      check_timeout now m =
        { m with wallets := lock_all_wallets m.wallets,
                 timeout_time := some (now + m.timeout) }) ∧
    (∀ now m tt, m.timeout_time = some tt → now < tt →
      check_timeout now m = { m with timeout_time := some (now + m.timeout) }) ∧
    (∀ now m, m.timeout_time = none → check_timeout now m = m) := by
  refine ⟨?_, ?_, ?_, ?_⟩
  · intro op hop now m
    cases op <;> first | rfl | simp [isChecked] at hop
  · intro now m tt h hle
    exact ct_expired now h hle
  · intro now m tt h hlt
    exact ct_live now h hlt
  · intro now m h
    exact ct_none now h

/-- C2 witness: `lock` is a checked operation and factors through the timeout
check on a concrete expired manager, whose check locks the wallet and slides
the expiry. -/
theorem c2_checked_operations_witness :
    runOp (MOp.lock "a") 10 mExpired = runBody (MOp.lock "a") 10 (check_timeout 10 mExpired) ∧
    check_timeout 10 mExpired =
      { mExpired with wallets := lock_all_wallets mExpired.wallets,
                      timeout_time := some (10 + mExpired.timeout) } := by
  exact ⟨c2_checked_operations.1 (MOp.lock "a") rfl 10 mExpired,
    c2_checked_operations.2.1 10 mExpired 5 rfl (by decide)⟩

/-- C3 counterexample: for the empty (hence invalid) unregistered name, the
auto-open attempt inside `unlock` fails InvalidName, so although the name is
still unregistered after the attempt the failure is not WalletNonexistent. -/
theorem c3_counterexample :
    List.lookup "" mEmpty.wallets = none ∧
    (unlock 0 "" "x" mEmpty).1 = .error .InvalidName ∧
    (unlock 0 "" "x" mEmpty).1 ≠ .error .WalletNonexistent ∧
    List.lookup "" (unlock 0 "" "x" mEmpty).2.wallets = none := by
  decide

/-- C3 (amended): for an unregistered name, `unlock` first attempts the public
`open` and a failing open propagates its error — InvalidName when the name is
invalid, WalletNonexistent when the name is valid but no wallet file exists;
for a registered wallet it fails WalletAlreadyUnlocked when already unlocked
and otherwise delegates to the capability, failing BadPassword on a mismatch
and unlocking the wallet on a match. -/
theorem c3_unlock_behavior :
    ∀ now name pw m,
      ((List.lookup name (check_timeout now m).wallets = none →
        valid_filename name = false →
        unlock now name pw m =
          (.error .InvalidName, check_timeout now (check_timeout now m))) ∧
       (List.lookup name (check_timeout now m).wallets = none →
        valid_filename name = true →
        List.lookup (name ++ ".wallet") m.files = none →
        unlock now name pw m =
          (.error .WalletNonexistent, check_timeout now (check_timeout now m))) ∧
       (∀ w, List.lookup name (check_timeout now m).wallets = some w → w.locked = false →
        unlock now name pw m = (.error .WalletAlreadyUnlocked, check_timeout now m)) ∧
       (∀ w, List.lookup name (check_timeout now m).wallets = some w → w.locked = true →
        pw ≠ w.password →
        unlock now name pw m = (.error .BadPassword, check_timeout now m)) ∧
       (∀ w, List.lookup name (check_timeout now m).wallets = some w → w.locked = true →
        pw = w.password →
        unlock now name pw m = (.ok (),
          { check_timeout now m with
            wallets := updateWallet name (fun _ => { w with locked := false })
              (check_timeout now m).wallets }))) := by
  intro now name pw m
  refine ⟨?_, ?_, ?_, ?_, ?_⟩
  · intro hn hv
    rw [unlock_unregistered hn, openWallet_invalid now (check_timeout now m) hv]
  · intro hn hv hf
    have hf2 : List.lookup (name ++ ".wallet") (check_timeout now m).files = none := by
      rw [ct_files]
      exact hf
    rw [unlock_unregistered hn, openWallet_nofile now (check_timeout now m) hv hf2]
  · intro w h hw
    rw [unlock_registered h, unlockAt_unlocked h hw]
  · intro w h hw hpw
    rw [unlock_registered h, unlockAt_locked_bad h hw hpw]
  · intro w h hw hpw
    rw [unlock_registered h, unlockAt_locked_good h hw hpw]

/-- C3 witness: on a concrete manager holding one locked wallet, `unlock` with
the wrong password fails BadPassword, and on an empty manager with a valid
absent name it fails WalletNonexistent. -/
theorem c3_unlock_behavior_witness :
    unlock 0 "a" "bad" mLocked = (.error .BadPassword, check_timeout 0 mLocked) ∧
    unlock 0 "c" "x" mEmpty =
      (.error .WalletNonexistent, check_timeout 0 (check_timeout 0 mEmpty)) := by
  exact ⟨(c3_unlock_behavior 0 "a" "bad" mLocked).2.2.2.1 wB (by decide) rfl (by decide),
    (c3_unlock_behavior 0 "c" "x" mEmpty).2.1 (by decide) (by decide) (by decide)⟩

/-- C4: `get_public_keys` fails NoWalletsAvailable exactly when the registry
is empty; on a non-empty registry it fails AllWalletsLocked exactly when
every registered wallet (after the mandatory timeout check) is locked, and
otherwise returns the union of the public keys of every unlocked wallet —
membership in that union holds exactly when some unlocked wallet holds the
key, so the two failures are distinct conditions. -/
theorem c4_get_public_keys_errors :
    (∀ now m,
      ((get_public_keys now m).1 = .error .NoWalletsAvailable ↔ m.wallets = []) ∧
      (m.wallets ≠ [] →
        ((get_public_keys now m).1 = .error .AllWalletsLocked ↔
          (check_timeout now m).wallets.all (fun p => p.2.is_locked) = true)) ∧
      ((check_timeout now m).wallets.all (fun p => p.2.is_locked) = false →
        (get_public_keys now m).1 = .ok (pubKeysUnion (check_timeout now m).wallets))) ∧
    (∀ (k : PubKey) (ws : List (String × Wallet)),
      k ∈ pubKeysUnion ws ↔ ∃ p ∈ ws, p.2.is_locked = false ∧ k ∈ p.2.list_public_keys) := by
  constructor
  · intro now m
    refine ⟨?_, ?_, ?_⟩
    · unfold get_public_keys get_public_keysBody
      rw [ct_isEmpty]
      by_cases hmw : m.wallets = []
      · simp [hmw]
      · have hb : m.wallets.isEmpty = false := by
          cases hw : m.wallets with
          | nil => exact absurd hw hmw
          | cons a b => rfl
        simp only [hb, Bool.false_eq_true, if_neg, not_false_eq_true]
        split <;> simp [hmw]
    · intro hmw
      have hb : m.wallets.isEmpty = false := by
        cases hw : m.wallets with
        | nil => exact absurd hw hmw
        | cons a b => rfl
      unfold get_public_keys get_public_keysBody
      rw [ct_isEmpty]
      simp only [hb, Bool.false_eq_true, if_neg, not_false_eq_true]
      by_cases hall : (check_timeout now m).wallets.all (fun p => p.2.is_locked) = true
      · simp [hall]
      · have hallf : (check_timeout now m).wallets.all (fun p => p.2.is_locked) = false := by
          cases hx : (check_timeout now m).wallets.all (fun p => p.2.is_locked)
          · rfl
          · exact absurd hx hall
        simp [hallf]
    · intro hall
      have hmw : m.wallets ≠ [] := by
        intro hmw
        rw [ct_wallets_nil now hmw] at hall
        simp at hall
      have hb : m.wallets.isEmpty = false := by
        cases hw : m.wallets with
        | nil => exact absurd hw hmw
        | cons a b => rfl
      unfold get_public_keys get_public_keysBody
      rw [ct_isEmpty]
      simp [hb, hall]
  · intro k ws
    exact mem_pubKeysUnion ws k

/-- C4 witness: on the empty manager the failure is NoWalletsAvailable, and on
a manager holding one locked wallet the failure is AllWalletsLocked. -/
theorem c4_get_public_keys_errors_witness :
    ((get_public_keys 0 mEmpty).1 = .error .NoWalletsAvailable ↔ mEmpty.wallets = []) ∧
    ((get_public_keys 0 mLocked).1 = .error .AllWalletsLocked ↔
      (check_timeout 0 mLocked).wallets.all (fun p => p.2.is_locked) = true) := by
  exact ⟨(c4_get_public_keys_errors.1 0 mEmpty).1,
    (c4_get_public_keys_errors.1 0 mLocked).2.1 (by decide)⟩

/-- C5: creating a valid unused name succeeds with the generated password, the
wallet is registered and Unlocked, and the returned password round-trips: an
explicit `lock` succeeds leaving it Locked and `unlock` with the returned
password succeeds leaving it Unlocked again, at arbitrary call instants. -/
theorem c5_create_roundtrip :
    ∀ (now1 now2 now3 genKey : Nat) (name : String) (m : WalletManager),
      valid_filename name = true →
      List.lookup (name ++ ".wallet") m.files = none →
      (create now1 genKey name m).1 = .ok (gen_password genKey) ∧
      List.lookup name (create now1 genKey name m).2.wallets =
        some { locked := false, password := gen_password genKey, keys := [] } ∧
      (lock now2 name (create now1 genKey name m).2).1 = .ok () ∧
      List.lookup name (lock now2 name (create now1 genKey name m).2).2.wallets =
        some { locked := true, password := gen_password genKey, keys := [] } ∧
      (unlock now3 name (gen_password genKey)
        (lock now2 name (create now1 genKey name m).2).2).1 = .ok () ∧
      List.lookup name (unlock now3 name (gen_password genKey)
        (lock now2 name (create now1 genKey name m).2).2).2.wallets =
        some { locked := false, password := gen_password genKey, keys := [] } := by
  intro now1 now2 now3 genKey name m hv hf
  have h1 := create_success now1 genKey hv hf
  have hA : (create now1 genKey name m).1 = .ok (gen_password genKey) := by rw [h1]
  have hB : List.lookup name (create now1 genKey name m).2.wallets =
      some { locked := false, password := gen_password genKey, keys := [] } := by
    rw [h1]
    exact lookup_registryReplace_self name _ _
  have hC := lock_locks now2 hB
  have hD := unlock_locked_correct now3 hC.2 rfl rfl
  exact ⟨hA, hB, hC.1, hC.2, hD.1, hD.2⟩

/-- C5 witness: creating the wallet alice in the empty manager, then locking
it, then unlocking it with the returned password. -/
theorem c5_create_roundtrip_witness :
    (create 0 7 "alice" mEmpty).1 = .ok (gen_password 7) ∧
    (lock 1 "alice" (create 0 7 "alice" mEmpty).2).1 = .ok () ∧
    (unlock 2 "alice" (gen_password 7)
      (lock 1 "alice" (create 0 7 "alice" mEmpty).2).2).1 = .ok () := by
  have h := c5_create_roundtrip 0 1 2 7 "alice" mEmpty (by decide) (by decide)
  exact ⟨h.1, h.2.2.1, h.2.2.2.2.1⟩

/-- C7: `lock` on an unregistered name fails WalletNonexistent; on an already
locked wallet it returns successfully leaving the state exactly as the
mandatory timeout check left it (no delegation to the capability); on an
unlocked wallet it locks exactly that wallet. -/
theorem c7_lock_idempotent :
    ∀ now name m,
      (List.lookup name (check_timeout now m).wallets = none →
        lock now name m = (.error .WalletNonexistent, check_timeout now m)) ∧
      (∀ w, List.lookup name (check_timeout now m).wallets = some w → w.locked = true →
        lock now name m = (.ok (), check_timeout now m)) ∧
      (∀ w, List.lookup name (check_timeout now m).wallets = some w → w.locked = false →
        lock now name m = (.ok (),
          { check_timeout now m with
            wallets := updateWallet name Wallet.lock (check_timeout now m).wallets })) := by
  intro now name m
  exact ⟨fun h => lock_none h, fun w h hw => lock_some_locked h hw,
    fun w h hw => lock_some_unlocked h hw⟩

/-- C7 witness: locking the already locked wallet of a concrete manager
succeeds and leaves the state unchanged, and locking an unregistered name
fails WalletNonexistent. -/
theorem c7_lock_idempotent_witness :
    lock 0 "a" mLocked = (.ok (), check_timeout 0 mLocked) ∧
    lock 0 "z" mLocked = (.error .WalletNonexistent, check_timeout 0 mLocked) := by
  exact ⟨(c7_lock_idempotent 0 "a" mLocked).2.1 wB (by decide) rfl,
    (c7_lock_idempotent 0 "z" mLocked).1 (by decide)⟩

/-- C8: a name that is empty, contains a slash or a backslash, or does not
normalize to itself is rejected InvalidName by both `create` and `open`
before any interaction with the directory contents (the state is exactly what
the mandatory timeout check produced), and every non-empty name whose
characters are all alphanumeric or dot, underscore, hyphen passes
validation. -/
theorem c8_name_validation :
    (∀ (name : String) (now genKey : Nat) (m : WalletManager),
      (name = "" ∨ '/' ∈ name.toList ∨ '\\' ∈ name.toList ∨ filenameOf name ≠ name) →
      create now genKey name m = (.error .InvalidName, check_timeout now m) ∧
      openWallet now name m = (.error .InvalidName, check_timeout now m)) ∧
    (∀ name : String, name ≠ "" →
      (∀ c ∈ name.toList, (c.isAlphanum || c == '.' || c == '_' || c == '-') = true) →
      valid_filename name = true) := by
  constructor
  · intro name now genKey m hbad
    have hval : valid_filename name = false := by
      unfold valid_filename
      by_cases h0 : name = ""
      · rw [if_pos h0]
      · rw [if_neg h0]
        rcases hbad with hb | hb | hb | hb
        · exact absurd hb h0
        · have hany : name.toList.any
              (fun c => !(c.isAlphanum || c == '.' || c == '_' || c == '-')) = true :=
            List.any_eq_true.mpr ⟨'/', hb, by decide⟩
          rw [if_pos hany]
        · have hany : name.toList.any
              (fun c => !(c.isAlphanum || c == '.' || c == '_' || c == '-')) = true :=
            List.any_eq_true.mpr ⟨'\\', hb, by decide⟩
          rw [if_pos hany]
        · by_cases hany : name.toList.any
              (fun c => !(c.isAlphanum || c == '.' || c == '_' || c == '-')) = true
          · rw [if_pos hany]
          · rw [if_neg hany]
            exact beq_eq_false_iff_ne.mpr hb
    exact ⟨create_invalid now genKey m hval, openWallet_invalid now m hval⟩
  · intro name h0 hall
    unfold valid_filename
    rw [if_neg h0]
    have hany : name.toList.any
        (fun c => !(c.isAlphanum || c == '.' || c == '_' || c == '-')) = false := by
      rw [List.any_eq_false]
      intro c hc
      rw [hall c hc]
      decide
    rw [if_neg (by rw [hany]; simp)]
    have hslash : '/' ∉ name.toList := by
      intro hc
      exact absurd (hall '/' hc) (by decide)
    rw [no_slash_filenameOf hslash]
    simp

/-- C8 witness: the name a/b is rejected InvalidName by create, and the name
alice passes validation. -/
theorem c8_name_validation_witness :
    create 0 0 "a/b" mEmpty = (.error .InvalidName, check_timeout 0 mEmpty) ∧
    valid_filename "alice" = true := by
  refine ⟨(c8_name_validation.1 "a/b" 0 0 mEmpty ?_).1,
    c8_name_validation.2 "alice" (by decide) (by decide)⟩
  right
  left
  decide

/-- C9: when `unlock` is called with an unregistered name whose wallet file
exists and loads, the auto-open registers the wallet (Locked) before the
password check, so a wrong password fails BadPassword while the wallet stays
registered and Locked. -/
theorem c9_autoopen_badpassword :
    ∀ (now : Nat) (name pw : String) (m : WalletManager) (f : WalletFile),
      List.lookup name (check_timeout now m).wallets = none →
      valid_filename name = true →
      List.lookup (name ++ ".wallet") m.files = some f →
      pw ≠ f.password →
      (unlock now name pw m).1 = .error .BadPassword ∧
      List.lookup name (unlock now name pw m).2.wallets =
        some { locked := true, password := f.password, keys := f.keys } := by
  intro now name pw m f hn hv hf hpw
  have hf2 : List.lookup (name ++ ".wallet") (check_timeout now m).files = some f := by
    rw [ct_files]
    exact hf
  rw [unlock_unregistered hn, openWallet_some now (check_timeout now m) hv hf2]
  dsimp only
  have hm2 : List.lookup name
      (registryReplace name { locked := true, password := f.password, keys := f.keys }
        (check_timeout now (check_timeout now m)).wallets) =
      some { locked := true, password := f.password, keys := f.keys } :=
    lookup_registryReplace_self name _ _
  rw [unlockAt_locked_bad hm2 rfl hpw]
  exact ⟨rfl, hm2⟩

/-- C9 witness: unlocking the not-yet-registered wallet b, whose file exists,
with a wrong password fails BadPassword and leaves it registered Locked. -/
theorem c9_autoopen_badpassword_witness :
    (unlock 0 "b" "bad" mFile).1 = .error .BadPassword ∧
    List.lookup "b" (unlock 0 "b" "bad" mFile).2.wallets =
      some { locked := true, password := "pw", keys := [] } := by
  exact c9_autoopen_badpassword 0 "b" "bad" mFile { password := "pw", keys := [] }
    (by decide) (by decide) (by decide) (by decide)

/-- C10: when, after the mandatory timeout check, not every registered wallet
is locked but every unlocked wallet holds zero public keys, `get_public_keys`
succeeds with the empty set: the AllWalletsLocked failure is decided by every
wallet being locked, not by the returned union being empty. -/
theorem c10_unlocked_empty_keys :
    ∀ now m,
      (check_timeout now m).wallets.all (fun p => p.2.is_locked) = false →
      (∀ p ∈ (check_timeout now m).wallets, p.2.is_locked = false → p.2.keys = []) →
      (get_public_keys now m).1 = .ok [] := by
  intro now m hall hkeys
  have hmw : m.wallets ≠ [] := by
    intro hmw
    rw [ct_wallets_nil now hmw] at hall
    simp at hall
  have hb : m.wallets.isEmpty = false := by
    cases hw : m.wallets with
    | nil => exact absurd hw hmw
    | cons a b => rfl
  unfold get_public_keys get_public_keysBody
  rw [ct_isEmpty]
  simp [hb, hall, pubKeysUnion_eq_nil _ hkeys]

/-- C10 witness: a manager holding one unlocked keyless wallet: the call
succeeds with the empty set. -/
theorem c10_unlocked_empty_keys_witness :
    (get_public_keys 0 mUnlocked).1 = .ok [] := by
  exact c10_unlocked_empty_keys 0 mUnlocked (by decide) (by decide)

end evt.wallet
